import Mathlib

/-!
Verification of the TizenRT excerpt:
  * `os/mm/mm_heap/mm_check_heap_corruption.c` — the heap-corruption walker
  * `os/fs/vfs/fs_select.c` — the select-over-poll compatibility shim

The C code is shallowly embedded: memory is a total map from addresses
(`Nat`) to node headers, the region walk is a fuel-indexed recursion (the
C loop has no a-priori termination bound), and every observable effect of
the C code (dbg log lines, semaphore take/give, the final return value, a
NULL-pointer dereference inside `dump_node`) is reified in the result type.
-/

/-- `struct mm_allocnode_s` / `struct mm_freenode_s` (the free-node view
overlays `flink`/`blink` on the same header).  `flink`/`blink` are raw
pointers; address `0` plays the role of the C `NULL`. -/
structure mm_allocnode_s where
  size : Nat
  preceding : Nat
  flink : Nat
  blink : Nat
deriving DecidableEq

/-- Modelled from the spec: `MM_ALLOC_BIT` lives in `mm.h`, which is not part
of the excerpt.  §3 of the spec: one bit of `preceding` is reserved to mark
the node's allocation state; the 32-bit build reserves the top bit. -/
def MM_ALLOC_BIT : Nat := 0x80000000

/-- `#define MM_PREV_NODE_SIZE(x) ((x)->preceding & ~MM_ALLOC_BIT)`
(`~MM_ALLOC_BIT` in a 32-bit size type is `0x7FFFFFFF`). -/
def MM_PREV_NODE_SIZE (x : mm_allocnode_s) : Nat := x.preceding &&& 0x7FFFFFFF

/-- `#define IS_ALLOCATED_NODE(x) ((x)->preceding & MM_ALLOC_BIT)` -/
def IS_ALLOCATED_NODE (x : mm_allocnode_s) : Bool :=
  decide (x.preceding &&& MM_ALLOC_BIT ≠ 0)

/-- `#define IS_FREE_NODE(x) (!IS_ALLOCATED_NODE(x))` -/
def IS_FREE_NODE (x : mm_allocnode_s) : Bool := !IS_ALLOCATED_NODE x

/-- Observable events of one `mm_check_heap_corruption` call: the semaphore
operations and the distinct `dbg` lines (constant separator lines are not
modelled; each constructor stands for one distinguishable message of the
source).  `dumpOverflowed`/`dumpCorrupted` are the two `dump_node` shapes:
an overflowed dump prints address, size and allocation state, a corrupted
dump prints address, size and preceding size. -/
inductive Ev where
  | semTake
  | semGive
  | errBoundary1
  | errBoundary2
  | errFreeList
  | dumpOverflowed (addr sz : Nat) (alloc : Bool)
  | dumpCorrupted (addr sz psz : Nat)
  | blinkMismatch (blink blinkFlink : Nat)
  | flinkMismatch (flink flinkBlink : Nat)
deriving DecidableEq

/-- Result of walking one region.  `fuelOut` marks that the modelled C loop
did not finish within the given fuel; `fault` marks a NULL-pointer
dereference inside `dump_node` (the C code passes the walker's `prev`
pointer, which may still be NULL, and `dump_node` reads `node->size`). -/
inductive WalkRes where
  | fuelOut
  | fault (evs : List Ev)
  | fail (evs : List Ev)
  | pass (evs : List Ev)
deriving DecidableEq

/-- Result of the whole `mm_check_heap_corruption` call. -/
inductive CheckRes where
  | fuelOut
  | fault (evs : List Ev)
  | ret (code : Int) (evs : List Ev)
deriving DecidableEq

/-- `dump_node(node, TYPE_OVERFLOWED)`: `none` models the NULL dereference
(the `dbg` call reads `node->size`).  The extra owner-pid/call-site lines of
a `CONFIG_DEBUG_MM_HEAPINFO` build are not modelled (that config off). -/
def dumpO (mem : Nat → mm_allocnode_s) (a : Nat) : Option Ev :=
  if a = 0 then none
  else some (Ev.dumpOverflowed a (mem a).size (IS_ALLOCATED_NODE (mem a)))

/-- `dump_node(node, TYPE_CORRUPTED)`. -/
def dumpC (mem : Nat → mm_allocnode_s) (a : Nat) : Option Ev :=
  if a = 0 then none
  else some (Ev.dumpCorrupted a (mem a).size (MM_PREV_NODE_SIZE (mem a)))

/-- Run a sequence of `dump_node` calls in order; the Bool is true when a
NULL dereference occurred, and the list holds the dumps emitted before it. -/
def collectDumps : List (Option Ev) → List Ev × Bool
  | [] => ([], false)
  | none :: _ => ([], true)
  | some e :: rest =>
    let r := collectDumps rest
    (e :: r.1, r.2)

/-- One error branch of the walker: leading `dbg` lines, the `dump_node`
calls, then the trailing lines and semaphore give; a NULL dereference while
dumping aborts the branch as a fault. -/
def emitFail (pre : List Ev) (ds : List (Option Ev)) (post : List Ev) : WalkRes :=
  if (collectDumps ds).2 then .fault (pre ++ (collectDumps ds).1)
  else .fail (pre ++ (collectDumps ds).1 ++ post)

/-- `mm_givesemaphore(heap)` is executed only outside interrupt context. -/
def giveEvs (ictx : Bool) : List Ev := if ictx then [] else [Ev.semGive]

/-- `mm_takesemaphore(heap)` is executed only outside interrupt context. -/
def takeEvs (ictx : Bool) : List Ev := if ictx then [] else [Ev.semTake]

/-- The `for (; node < heap->mm_heapend[region]; prev = node, node = next,
next = next + next->size)` loop of `mm_check_heap_corruption`, lines
157-225.  `prev`, `node`, `next` are the three cursor pointers (0 = NULL);
`fuel` bounds the number of iterations of the model only — the C loop has
no such bound. -/
def walkRegion (mem : Nat → mm_allocnode_s) (hend : Nat) (ictx : Bool) :
    Nat → Nat → Nat → Nat → WalkRes
  | 0, _, _, _ => .fuelOut
  | fuel + 1, prev, node, next =>
    if node < hend then
      if prev ≠ 0 ∧ (mem prev).size ≠ MM_PREV_NODE_SIZE (mem node) then
        emitFail [.errBoundary1] [dumpO mem prev, dumpC mem node] (giveEvs ictx)
      else if (mem node).size ≠ MM_PREV_NODE_SIZE (mem next) then
        emitFail [.errBoundary2]
          [dumpO mem prev, dumpC mem node, dumpO mem node, dumpC mem next]
          (giveEvs ictx)
      else if IS_FREE_NODE (mem node) then
        if (mem node).blink ≠ 0 ∧ (mem ((mem node).blink)).flink ≠ node then
          emitFail [.errFreeList] [dumpO mem prev, dumpC mem node]
            (Ev.blinkMismatch (mem node).blink (mem ((mem node).blink)).flink ::
              giveEvs ictx)
        else if (mem node).flink ≠ 0 ∧ (mem ((mem node).flink)).blink ≠ node then
          emitFail [.errFreeList] [dumpO mem prev, dumpC mem node]
            (Ev.flinkMismatch (mem node).flink (mem ((mem node).flink)).blink ::
              giveEvs ictx)
        else
          walkRegion mem hend ictx fuel node next (next + (mem next).size)
      else
        walkRegion mem hend ictx fuel node next (next + (mem next).size)
    else
      .pass (giveEvs ictx)

/-- `struct mm_heap_s`, reduced to what the checker reads: the node memory
and, per region, the `mm_heapstart[r]`/`mm_heapend[r]` pair. -/
structure mm_heap_s where
  mem : Nat → mm_allocnode_s
  regions : List (Nat × Nat)

/-- One region of the checker: take the semaphore (task context only), walk
from `mm_heapstart[region]` with `prev = NULL`,
`next = node + node->size`. -/
def checkRegion (mem : Nat → mm_allocnode_s) (s e : Nat) (ictx : Bool)
    (fuel : Nat) : WalkRes :=
  match walkRegion mem e ictx fuel 0 s (s + (mem s).size) with
  | .fuelOut => .fuelOut
  | .fault l => .fault (takeEvs ictx ++ l)
  | .fail l => .fail (takeEvs ictx ++ l)
  | .pass l => .pass (takeEvs ictx ++ l)

/-- The `for (region = 0; region < heap->mm_nregions; region++)` loop:
a failing region returns -1 at once, otherwise the next region is visited
and the call returns 0 after the last one. -/
def checkRegions (mem : Nat → mm_allocnode_s) (ictx : Bool) (fuel : Nat) :
    List (Nat × Nat) → List Ev → CheckRes
  | [], acc => .ret 0 acc
  | r :: rest, acc =>
    match checkRegion mem r.1 r.2 ictx fuel with
    | .fuelOut => .fuelOut
    | .fault l => .fault (acc ++ l)
    | .fail l => .ret (-1) (acc ++ l)
    | .pass l => checkRegions mem ictx fuel rest (acc ++ l)

/-- `int mm_check_heap_corruption(struct mm_heap_s *heap)`, lines 123-236.
`ictx` is the value of `up_interrupt_context()` during the call (the model
assumes a `CONFIG_BUILD_FLAT`/`__KERNEL__` build, where the guard is
compiled in). -/
def mm_check_heap_corruption (h : mm_heap_s) (ictx : Bool) (fuel : Nat) :
    CheckRes :=
  checkRegions h.mem ictx fuel h.regions []

/-- Events of a region-walk result. -/
def evsOfW : WalkRes → List Ev
  | .fuelOut => []
  | .fault l => l
  | .fail l => l
  | .pass l => l

/-- Events of a whole-check result. -/
def evsOfC : CheckRes → List Ev
  | .fuelOut => []
  | .fault l => l
  | .ret _ l => l

/-- Return code of a whole-check result, when the call returned at all. -/
def retCode : CheckRes → Option Int
  | .ret c _ => some c
  | _ => none

/-! ### Concrete heaps used by the claims -/

/-- A well-formed single-region heap: an allocated node at 16 (size 16),
a free node at 32 (size 16, not on any free list), end sentinel at 48. -/
def memGood : Nat → mm_allocnode_s := fun a =>
  if a = 16 then ⟨16, 0x80000000, 0, 0⟩
  else if a = 32 then ⟨16, 16, 0, 0⟩
  else if a = 48 then ⟨16, 16 + 0x80000000, 0, 0⟩
  else ⟨0, 0, 0, 0⟩

def Hgood : mm_heap_s := ⟨memGood, [(16, 48)]⟩



/-- Boundary violation away from the first node: pair (32, 48) mismatches
(node 48 records a preceding size of 12, node 32 has size 16). -/
def memB : Nat → mm_allocnode_s := fun a =>
  if a = 16 then ⟨16, 0x80000000, 0, 0⟩
  else if a = 32 then ⟨16, 16 + 0x80000000, 0, 0⟩
  else if a = 48 then ⟨16, 12 + 0x80000000, 0, 0⟩
  else ⟨0, 0, 0, 0⟩

def Hb : mm_heap_s := ⟨memB, [(16, 64)]⟩

/-- Free-list backward violation: free node 32 has `blink = 8` but
`(mem 8).flink = 99 ≠ 32`. -/
def memF : Nat → mm_allocnode_s := fun a =>
  if a = 8 then ⟨0, 0x80000000, 99, 0⟩
  else if a = 16 then ⟨16, 0x80000000, 0, 0⟩
  else if a = 32 then ⟨16, 16, 0, 8⟩
  else if a = 48 then ⟨16, 16 + 0x80000000, 0, 0⟩
  else ⟨0, 0, 0, 0⟩

def Hf : mm_heap_s := ⟨memF, [(16, 48)]⟩

/-- Free-list forward violation: free node 32 has `flink = 8` but
`(mem 8).blink = 99 ≠ 32`. -/
def memFF : Nat → mm_allocnode_s := fun a =>
  if a = 8 then ⟨0, 0x80000000, 0, 99⟩
  else if a = 16 then ⟨16, 0x80000000, 0, 0⟩
  else if a = 32 then ⟨16, 16, 8, 0⟩
  else if a = 48 then ⟨16, 16 + 0x80000000, 0, 0⟩
  else ⟨0, 0, 0, 0⟩

def Hff : mm_heap_s := ⟨memFF, [(16, 48)]⟩

/-- Boundary violation at the region's first node: node 16 has size 16 but
node 32 records a preceding size of 8; `prev` is still NULL there. -/
def memB0 : Nat → mm_allocnode_s := fun a =>
  if a = 16 then ⟨16, 0x80000000, 0, 0⟩
  else if a = 32 then ⟨16, 8 + 0x80000000, 0, 0⟩
  else ⟨0, 0, 0, 0⟩

def Hb0 : mm_heap_s := ⟨memB0, [(16, 64)]⟩

/-- Free-list violation at the region's first node: node 16 is free with
`blink = 8`, `(mem 8).flink = 99 ≠ 16`; `prev` is still NULL there. -/
def memF0 : Nat → mm_allocnode_s := fun a =>
  if a = 8 then ⟨0, 0x80000000, 99, 0⟩
  else if a = 16 then ⟨16, 0, 0, 8⟩
  else if a = 32 then ⟨16, 16 + 0x80000000, 0, 0⟩
  else ⟨0, 0, 0, 0⟩

def Hf0 : mm_heap_s := ⟨memF0, [(16, 32)]⟩

/-- A zero-size node at 16 that passes every check: the walk never advances. -/
def memZ : Nat → mm_allocnode_s := fun a =>
  if a = 16 then ⟨0, 0x80000000, 0, 0⟩
  else ⟨0, 0, 0, 0⟩






/-! ### C1 — return codes of the violation classes -/

/-- C1, counterexample: `Hb` fails with a boundary violation and `Hf` with a
free-list violation (the traces carry the class-distinguishing log lines),
yet both calls return the same code -1 — the return value does not
distinguish the violation classes, contradicting the claim that a free-list
violation returns a code different from a boundary violation. -/
theorem C1_counterexample :
    retCode (mm_check_heap_corruption Hb false 10) =
      retCode (mm_check_heap_corruption Hf false 10) ∧
    retCode (mm_check_heap_corruption Hb false 10) = some (-1) ∧
    Ev.errBoundary2 ∈ evsOfC (mm_check_heap_corruption Hb false 10) ∧
    Ev.errFreeList ∉ evsOfC (mm_check_heap_corruption Hb false 10) ∧
    Ev.errFreeList ∈ evsOfC (mm_check_heap_corruption Hf false 10) ∧
    Ev.errBoundary2 ∉ evsOfC (mm_check_heap_corruption Hf false 10) := by
  decide

/-- C1, amended: every reachable violation class makes
`mm_check_heap_corruption` return the same failure code -1; the classes are
distinguished only in the diagnostic log (boundary violations emit the
`errBoundary2` message, free-list violations the `errFreeList` message with
the mismatched `blink` resp. `flink` pointer), not in the return value. -/
theorem C1_thm :
    mm_check_heap_corruption Hb false 10 =
      .ret (-1) [Ev.semTake, Ev.errBoundary2,
        Ev.dumpOverflowed 16 16 true, Ev.dumpCorrupted 32 16 16,
        Ev.dumpOverflowed 32 16 true, Ev.dumpCorrupted 48 16 12,
        Ev.semGive] ∧
    mm_check_heap_corruption Hf false 10 =
      .ret (-1) [Ev.semTake, Ev.errFreeList,
        Ev.dumpOverflowed 16 16 true, Ev.dumpCorrupted 32 16 16,
        Ev.blinkMismatch 8 99, Ev.semGive] ∧
    mm_check_heap_corruption Hff false 10 =
      .ret (-1) [Ev.semTake, Ev.errFreeList,
        Ev.dumpOverflowed 16 16 true, Ev.dumpCorrupted 32 16 16,
        Ev.flinkMismatch 8 99, Ev.semGive] := by
  decide

/-! ### C2 — the checker can fault on a violation at a region's first node -/

/-- C2: the claim (the checker only reads node fields and never itself
panics or faults) is contradicted by the code.  On `Hb0` the size of the
region's first node does not match the next node's preceding-size field;
the walker's `prev` pointer is still NULL there, and the error branch
passes it to `dump_node`, whose first `dbg` call dereferences it
(`node->size`) — a NULL-pointer fault before any result is returned.  The
same happens on `Hf0`, where the region's first node is free with a
mismatched `blink`. -/
theorem C2_thm :
    mm_check_heap_corruption Hb0 false 10 =
      .fault [Ev.semTake, Ev.errBoundary2] ∧
    mm_check_heap_corruption Hf0 false 10 =
      .fault [Ev.semTake, Ev.errFreeList] := by
  decide

/-! ### C3 — success on well-formed heaps -/

/-- The node chain of a region: starting at `a` and advancing by `size`
bytes, the listed addresses are visited strictly below `hend` and the chain
then reaches (or passes) `hend`, the loop's exit condition. -/
inductive Chain (mem : Nat → mm_allocnode_s) (hend : Nat) : Nat → List Nat → Prop
  | nil (a : Nat) (h : hend ≤ a) : Chain mem hend a []
  | cons (a : Nat) (L : List Nat) (h : a < hend)
      (t : Chain mem hend (a + (mem a).size) L) : Chain mem hend a (a :: L)

/-- Spec §3 invariant 1 for the pair (A = node at `a`, B = the node
`size` bytes later): `A.size == (B.preceding & ~ALLOC_BIT)`. -/
def pairInv (mem : Nat → mm_allocnode_s) (a : Nat) : Prop :=
  (mem a).size = MM_PREV_NODE_SIZE (mem (a + (mem a).size))

/-- Spec §3 invariant 4 for the node at `a`: if it is free, both free-list
neighbors point back at it, a NULL terminator being exempt. -/
def freeInv (mem : Nat → mm_allocnode_s) (a : Nat) : Prop :=
  IS_FREE_NODE (mem a) = true →
    ((mem a).blink ≠ 0 → (mem ((mem a).blink)).flink = a) ∧
    ((mem a).flink ≠ 0 → (mem ((mem a).flink)).blink = a)

instance (mem : Nat → mm_allocnode_s) (a : Nat) : Decidable (pairInv mem a) := by
  unfold pairInv; infer_instance

instance (mem : Nat → mm_allocnode_s) (a : Nat) : Decidable (freeInv mem a) := by
  unfold freeInv; infer_instance

/-- A region whose whole chain satisfies invariants 1 and 4 and is short
enough for the given fuel. -/
def GoodRegion (mem : Nat → mm_allocnode_s) (s e fuel : Nat) : Prop :=
  ∃ L, Chain mem e s L ∧ L.length < fuel ∧
    ∀ a ∈ L, pairInv mem a ∧ freeInv mem a

/-- Trace of a violation-free check: per region one semaphore take and one
give (task context), nothing at all in interrupt context. -/
def quietTrace (ictx : Bool) (n : Nat) : List Ev :=
  List.flatten (List.replicate n (takeEvs ictx ++ giveEvs ictx))

lemma walk_good (mem : Nat → mm_allocnode_s) (hend : Nat) (ictx : Bool) :
    ∀ (L : List Nat) (node : Nat), Chain mem hend node L →
      (∀ a ∈ L, pairInv mem a ∧ freeInv mem a) →
      ∀ (fuel : Nat), L.length < fuel →
      ∀ (prev : Nat),
        (prev = 0 ∨ (mem prev).size = MM_PREV_NODE_SIZE (mem node)) →
      walkRegion mem hend ictx fuel prev node (node + (mem node).size) =
        .pass (giveEvs ictx) := by
  intro L node hc
  induction hc with
  | nil a ha =>
    intro _ fuel hf prev _
    cases fuel with
    | zero => omega
    | succ f =>
      simp only [walkRegion]
      rw [if_neg (Nat.not_lt.mpr ha)]
  | cons a L ha t ih =>
    intro hinv fuel hf prev hp
    cases fuel with
    | zero => simp at hf
    | succ f =>
      have hpair : pairInv mem a := (hinv a (by simp)).1
      simp only [walkRegion]
      rw [if_pos ha]
      rw [if_neg (by rcases hp with h | h <;> simp [h])]
      rw [if_neg (not_ne_iff.mpr hpair)]
      have hrec :
          walkRegion mem hend ictx f a (a + (mem a).size)
            ((a + (mem a).size) + (mem (a + (mem a).size)).size) =
          .pass (giveEvs ictx) := by
        refine ih (fun x hx => hinv x (by simp [hx])) f (by simpa using hf)
          a (Or.inr hpair)
      cases hfree : IS_FREE_NODE (mem a) with
      | false => rw [if_neg (by simp)]; exact hrec
      | true =>
        have hfi := (hinv a (by simp)).2 hfree
        rw [if_pos rfl]
        rw [if_neg (by rintro ⟨hb, hbf⟩; exact hbf (hfi.1 hb))]
        rw [if_neg (by rintro ⟨hb, hbf⟩; exact hbf (hfi.2 hb))]
        exact hrec

lemma checkRegion_good (mem : Nat → mm_allocnode_s) (s e : Nat) (ictx : Bool)
    (fuel : Nat) (hg : GoodRegion mem s e fuel) :
    checkRegion mem s e ictx fuel = .pass (takeEvs ictx ++ giveEvs ictx) := by
  obtain ⟨L, hc, hlen, hinv⟩ := hg
  unfold checkRegion
  rw [walk_good mem e ictx L s hc hinv fuel hlen 0 (Or.inl rfl)]

lemma checkRegions_good (mem : Nat → mm_allocnode_s) (ictx : Bool) (fuel : Nat) :
    ∀ (rs : List (Nat × Nat)) (acc : List Ev),
      (∀ r ∈ rs, GoodRegion mem r.1 r.2 fuel) →
      checkRegions mem ictx fuel rs acc =
        .ret 0 (acc ++ quietTrace ictx rs.length) := by
  intro rs
  induction rs with
  | nil => intro acc _; simp [checkRegions, quietTrace]
  | cons r rest ih =>
    intro acc hg
    simp only [checkRegions]
    rw [checkRegion_good mem r.1 r.2 ictx fuel (hg r (by simp))]
    show checkRegions mem ictx fuel rest (acc ++ (takeEvs ictx ++ giveEvs ictx)) = _
    rw [ih (acc ++ (takeEvs ictx ++ giveEvs ictx))
      (fun x hx => hg x (by simp [hx]))]
    simp [quietTrace, List.replicate_succ, List.append_assoc]

/-- C3: on a heap whose every region satisfies, along its whole chain, the
boundary invariant `A.size == (B.preceding & ~ALLOC_BIT)` and the free-list
symmetry invariant, `mm_check_heap_corruption` returns success (0), its
trace being just the per-region semaphore take/give; and, the checker being
a pure reader (nothing in the model mutates the heap), every repeated
invocation on the untouched heap returns the same success. -/
theorem C3_thm (h : mm_heap_s) (ictx : Bool) (fuel : Nat)
    (hg : ∀ r ∈ h.regions, GoodRegion h.mem r.1 r.2 fuel) :
    mm_check_heap_corruption h ictx fuel =
      .ret 0 (quietTrace ictx h.regions.length) ∧
    ∀ (n : Nat) (res : CheckRes),
      res ∈ List.replicate n (mm_check_heap_corruption h ictx fuel) →
      res = .ret 0 (quietTrace ictx h.regions.length) := by
  have h1 : mm_check_heap_corruption h ictx fuel =
      .ret 0 (quietTrace ictx h.regions.length) := by
    unfold mm_check_heap_corruption
    rw [checkRegions_good h.mem ictx fuel h.regions [] hg]
    simp
  exact ⟨h1, fun n res hres => (List.eq_of_mem_replicate hres).trans h1⟩

/-- C3, witness: the well-formed heap `Hgood` checks out with success. -/
theorem C3_witness :
    mm_check_heap_corruption Hgood false 10 = .ret 0 (quietTrace false 1) := by
  refine (C3_thm Hgood false 10 ?_).1
  intro r hr
  simp only [Hgood, List.mem_singleton] at hr
  subst hr
  refine ⟨[16, 32], ?_, by decide, by decide⟩
  apply Chain.cons 16 [32] (by decide)
  show Chain memGood 48 32 [32]
  apply Chain.cons 32 [] (by decide)
  show Chain memGood 48 48 []
  exact Chain.nil 48 (by decide)

/-! ### C4 — behaviour on the first boundary mismatch -/

/-- The two `dump_node` output shapes. -/
def isDump : Ev → Prop
  | .dumpOverflowed _ _ _ => True
  | .dumpCorrupted _ _ _ => True
  | _ => False

lemma dumpO_isDump (mem : Nat → mm_allocnode_s) (a : Nat) (e : Ev)
    (h : dumpO mem a = some e) : isDump e := by
  unfold dumpO at h
  split at h
  · exact absurd h (by simp)
  · rw [← Option.some.inj h]; trivial

lemma dumpC_isDump (mem : Nat → mm_allocnode_s) (a : Nat) (e : Ev)
    (h : dumpC mem a = some e) : isDump e := by
  unfold dumpC at h
  split at h
  · exact absurd h (by simp)
  · rw [← Option.some.inj h]; trivial

lemma collectDumps_mem :
    ∀ (ds : List (Option Ev)) (e : Ev), e ∈ (collectDumps ds).1 → some e ∈ ds := by
  intro ds
  induction ds with
  | nil => simp [collectDumps]
  | cons o rest ih =>
    cases o with
    | none => simp [collectDumps]
    | some x =>
      intro e he
      simp only [collectDumps, List.mem_cons] at he
      rcases he with rfl | h
      · simp
      · simp [ih e h]

lemma emitFail_evs_sub (pre : List Ev) (ds : List (Option Ev)) (post : List Ev) :
    ∀ e ∈ evsOfW (emitFail pre ds post), e ∈ pre ∨ some e ∈ ds ∨ e ∈ post := by
  intro e he
  unfold emitFail at he
  split at he
  · simp only [evsOfW, List.mem_append] at he
    rcases he with h | h
    · exact Or.inl h
    · exact Or.inr (Or.inl (collectDumps_mem _ _ h))
  · simp only [evsOfW, List.mem_append] at he
    rcases he with (h | h) | h
    · exact Or.inl h
    · exact Or.inr (Or.inl (collectDumps_mem _ _ h))
    · exact Or.inr (Or.inr h)

lemma emitFail_mem_cases (pre : List Ev) (ds : List (Option Ev)) (post : List Ev)
    (e : Ev) (he : e ∈ evsOfW (emitFail pre ds post))
    (hds : ∀ o ∈ ds, ∀ x, o = some x → isDump x) :
    e ∈ pre ∨ isDump e ∨ e ∈ post := by
  rcases emitFail_evs_sub pre ds post e he with h | h | h
  · exact Or.inl h
  · exact Or.inr (Or.inl (hds _ h e rfl))
  · exact Or.inr (Or.inr h)

lemma dump_pair_isDump (mem : Nat → mm_allocnode_s) (p n : Nat) :
    ∀ o ∈ [dumpO mem p, dumpC mem n], ∀ x, o = some x → isDump x := by
  intro o ho x h
  subst h
  simp only [List.mem_cons, List.not_mem_nil, or_false] at ho
  rcases ho with h | h
  · exact dumpO_isDump mem p x h.symm
  · exact dumpC_isDump mem n x h.symm

lemma dump_quad_isDump (mem : Nat → mm_allocnode_s) (p n q : Nat) :
    ∀ o ∈ [dumpO mem p, dumpC mem n, dumpO mem n, dumpC mem q],
      ∀ x, o = some x → isDump x := by
  intro o ho x h
  subst h
  simp only [List.mem_cons, List.not_mem_nil, or_false] at ho
  rcases ho with h | h | h | h
  · exact dumpO_isDump mem p x h.symm
  · exact dumpC_isDump mem n x h.symm
  · exact dumpO_isDump mem n x h.symm
  · exact dumpC_isDump mem q x h.symm

/-- The `prev`/`node` boundary branch can never fire: whenever the loop body
runs, the pair (prev, node) was already validated — either `prev` is still
NULL, or the previous iteration's `node`/`next` check established equality. -/
lemma walk_no_b1 (mem : Nat → mm_allocnode_s) (hend : Nat) (ictx : Bool) :
    ∀ (fuel prev node next : Nat),
      (prev = 0 ∨ (mem prev).size = MM_PREV_NODE_SIZE (mem node)) →
      Ev.errBoundary1 ∉ evsOfW (walkRegion mem hend ictx fuel prev node next) := by
  intro fuel
  induction fuel with
  | zero => intro prev node next _; simp [walkRegion, evsOfW]
  | succ f ih =>
    intro prev node next hp
    simp only [walkRegion]
    by_cases h0 : node < hend
    · rw [if_pos h0]
      rw [if_neg (by rcases hp with h | h <;> simp [h])]
      by_cases h2 : (mem node).size ≠ MM_PREV_NODE_SIZE (mem next)
      · rw [if_pos h2]
        intro hmem
        rcases emitFail_mem_cases _ _ _ _ hmem (dump_quad_isDump mem prev node next)
          with h | h | h
        · simp at h
        · exact h
        · cases ictx <;> simp [giveEvs] at h
      · rw [if_neg h2]
        have hnext : (mem node).size = MM_PREV_NODE_SIZE (mem next) :=
          not_ne_iff.mp h2
        cases hfree : IS_FREE_NODE (mem node) with
        | false => rw [if_neg (by simp)]; exact ih node next _ (Or.inr hnext)
        | true =>
          rw [if_pos rfl]
          by_cases hb : (mem node).blink ≠ 0 ∧
              (mem ((mem node).blink)).flink ≠ node
          · rw [if_pos hb]
            intro hmem
            rcases emitFail_mem_cases _ _ _ _ hmem (dump_pair_isDump mem prev node)
              with h | h | h
            · simp at h
            · exact h
            · cases ictx <;> simp [giveEvs] at h
          · rw [if_neg hb]
            by_cases hf2 : (mem node).flink ≠ 0 ∧
                (mem ((mem node).flink)).blink ≠ node
            · rw [if_pos hf2]
              intro hmem
              rcases emitFail_mem_cases _ _ _ _ hmem
                (dump_pair_isDump mem prev node) with h | h | h
              · simp at h
              · exact h
              · cases ictx <;> simp [giveEvs] at h
            · rw [if_neg hf2]; exact ih node next _ (Or.inr hnext)
    · rw [if_neg h0]
      cases ictx <;> simp [giveEvs, evsOfW]

lemma checkRegion_no_b1 (mem : Nat → mm_allocnode_s) (s e : Nat) (ictx : Bool)
    (fuel : Nat) :
    Ev.errBoundary1 ∉ evsOfW (checkRegion mem s e ictx fuel) := by
  have hw := walk_no_b1 mem e ictx fuel 0 s (s + (mem s).size) (Or.inl rfl)
  unfold checkRegion
  cases hres : walkRegion mem e ictx fuel 0 s (s + (mem s).size) with
  | fuelOut => simp [evsOfW]
  | fault l =>
    rw [hres] at hw
    simp only [evsOfW, List.mem_append] at hw ⊢
    rintro (h | h)
    · cases ictx <;> simp [takeEvs] at h
    · exact hw h
  | fail l =>
    rw [hres] at hw
    simp only [evsOfW, List.mem_append] at hw ⊢
    rintro (h | h)
    · cases ictx <;> simp [takeEvs] at h
    · exact hw h
  | pass l =>
    rw [hres] at hw
    simp only [evsOfW, List.mem_append] at hw ⊢
    rintro (h | h)
    · cases ictx <;> simp [takeEvs] at h
    · exact hw h

lemma checkRegions_no_b1 (mem : Nat → mm_allocnode_s) (ictx : Bool) (fuel : Nat) :
    ∀ (rs : List (Nat × Nat)) (acc : List Ev), Ev.errBoundary1 ∉ acc →
      Ev.errBoundary1 ∉ evsOfC (checkRegions mem ictx fuel rs acc) := by
  intro rs
  induction rs with
  | nil => intro acc hacc; simpa [checkRegions, evsOfC] using hacc
  | cons r rest ih =>
    intro acc hacc
    have hr := checkRegion_no_b1 mem r.1 r.2 ictx fuel
    simp only [checkRegions]
    cases hres : checkRegion mem r.1 r.2 ictx fuel with
    | fuelOut => simp [evsOfC]
    | fault l =>
      rw [hres] at hr
      simp only [evsOfW] at hr
      simp only [evsOfC, List.mem_append]
      rintro (h | h)
      · exact hacc h
      · exact hr h
    | fail l =>
      rw [hres] at hr
      simp only [evsOfW] at hr
      simp only [evsOfC, List.mem_append]
      rintro (h | h)
      · exact hacc h
      · exact hr h
    | pass l =>
      rw [hres] at hr
      simp only [evsOfW] at hr
      refine ih (acc ++ l) ?_
      simp only [List.mem_append]
      rintro (h | h)
      · exact hacc h
      · exact hr h

/-- C4, amended: the `prev`/`node` boundary branch of the walker (lines
157-170) is unreachable in a sequential execution — no trace of any call
ever carries its report (`errBoundary1`).  The first adjacent pair (A, B)
with `A.size != (B.preceding & ~ALLOC_BIT)` is instead caught one iteration
earlier by the `node`/`next` check, which reports BOTH candidate pairs —
A's predecessor as overflowed with A as corrupted, and A as overflowed with
B as corrupted — an overflowed dump carrying address, size and allocation
state, a corrupted dump carrying address, size and preceding size; the
region walk then stops and the call immediately returns -1 (shown
concretely on `Hb`, whose first and only mismatched pair is (32, 48)). -/
theorem C4_thm :
    (∀ (h : mm_heap_s) (ictx : Bool) (fuel : Nat),
      Ev.errBoundary1 ∉ evsOfC (mm_check_heap_corruption h ictx fuel)) ∧
    mm_check_heap_corruption Hb false 10 =
      .ret (-1) [Ev.semTake, Ev.errBoundary2,
        Ev.dumpOverflowed 16 16 true, Ev.dumpCorrupted 32 16 16,
        Ev.dumpOverflowed 32 16 true, Ev.dumpCorrupted 48 16 12,
        Ev.semGive] := by
  constructor
  · intro h ictx fuel
    exact checkRegions_no_b1 h.mem ictx fuel h.regions [] (by simp)
  · decide

/-- C4, counterexample: on `Hb` the first adjacent pair with
`prev.size != (node.preceding & ~ALLOC_BIT)` is (32, 48), yet the call does
not produce the claimed report of exactly that pair: the `errBoundary1`
branch never fires, the earlier node 16 is dumped as well, and the
overflowed dumps carry an allocation flag, not a preceding-size field — the
whole report is the `errBoundary2` two-scenario dump. -/
theorem C4_counterexample :
    (memB 32).size ≠ MM_PREV_NODE_SIZE (memB 48) ∧
    (memB 16).size = MM_PREV_NODE_SIZE (memB 32) ∧
    mm_check_heap_corruption Hb false 10 =
      .ret (-1) [Ev.semTake, Ev.errBoundary2,
        Ev.dumpOverflowed 16 16 true, Ev.dumpCorrupted 32 16 16,
        Ev.dumpOverflowed 32 16 true, Ev.dumpCorrupted 48 16 12,
        Ev.semGive] ∧
    Ev.errBoundary1 ∉ evsOfC (mm_check_heap_corruption Hb false 10) ∧
    Ev.dumpOverflowed 16 16 true ∈ evsOfC (mm_check_heap_corruption Hb false 10) := by
  decide

/-! ### C5 — the free-list symmetry check -/

/-- C5, amended: at a loop iteration whose boundary checks pass, a node with
a clear allocation bit is checked for free-list symmetry in both directions,
a NULL terminator pointer being exempt: a backward mismatch
(`blink->flink != node`) and, failing that, a forward mismatch
(`flink->blink != node`) each report the node and the specific mismatched
neighbor pointer and make the walk return failure at once, no further node
being examined; a symmetric (or terminator-bounded) free node lets the walk
continue, and a node with the allocation bit set is never subjected to the
free-list check — PROVIDED the node is not the region's first node: there
`prev` is NULL, and reporting dereferences it instead (see the
counterexample). -/
theorem C5_thm (mem : Nat → mm_allocnode_s) (hend : Nat) (ictx : Bool)
    (fuel prev node next : Nat)
    (h0 : node < hend)
    (hp : prev = 0 ∨ (mem prev).size = MM_PREV_NODE_SIZE (mem node))
    (h2 : (mem node).size = MM_PREV_NODE_SIZE (mem next)) :
    (IS_FREE_NODE (mem node) = false →
      walkRegion mem hend ictx (fuel + 1) prev node next =
        walkRegion mem hend ictx fuel node next (next + (mem next).size)) ∧
    (IS_FREE_NODE (mem node) = true →
      ((prev ≠ 0 → node ≠ 0 →
        (mem node).blink ≠ 0 → (mem ((mem node).blink)).flink ≠ node →
        walkRegion mem hend ictx (fuel + 1) prev node next =
          .fail ([Ev.errFreeList,
            Ev.dumpOverflowed prev (mem prev).size (IS_ALLOCATED_NODE (mem prev)),
            Ev.dumpCorrupted node (mem node).size (MM_PREV_NODE_SIZE (mem node)),
            Ev.blinkMismatch (mem node).blink (mem ((mem node).blink)).flink] ++
            giveEvs ictx)) ∧
      (prev ≠ 0 → node ≠ 0 →
        ((mem node).blink = 0 ∨ (mem ((mem node).blink)).flink = node) →
        (mem node).flink ≠ 0 → (mem ((mem node).flink)).blink ≠ node →
        walkRegion mem hend ictx (fuel + 1) prev node next =
          .fail ([Ev.errFreeList,
            Ev.dumpOverflowed prev (mem prev).size (IS_ALLOCATED_NODE (mem prev)),
            Ev.dumpCorrupted node (mem node).size (MM_PREV_NODE_SIZE (mem node)),
            Ev.flinkMismatch (mem node).flink (mem ((mem node).flink)).blink] ++
            giveEvs ictx)) ∧
      (((mem node).blink = 0 ∨ (mem ((mem node).blink)).flink = node) →
        ((mem node).flink = 0 ∨ (mem ((mem node).flink)).blink = node) →
        walkRegion mem hend ictx (fuel + 1) prev node next =
          walkRegion mem hend ictx fuel node next (next + (mem next).size)))) := by
  have hb1 : ¬(prev ≠ 0 ∧ (mem prev).size ≠ MM_PREV_NODE_SIZE (mem node)) := by
    rcases hp with h | h <;> simp [h]
  constructor
  · intro hfree
    simp only [walkRegion]
    rw [if_pos h0, if_neg hb1, if_neg (not_ne_iff.mpr h2), if_neg (by simp [hfree])]
  · intro hfree
    refine ⟨?_, ?_, ?_⟩
    · intro hpz hnz hb hbf
      simp only [walkRegion]
      rw [if_pos h0, if_neg hb1, if_neg (not_ne_iff.mpr h2), if_pos hfree,
        if_pos ⟨hb, hbf⟩]
      simp [emitFail, collectDumps, dumpO, dumpC, hpz, hnz]
    · intro hpz hnz hbok hf hfb
      have hnb : ¬((mem node).blink ≠ 0 ∧ (mem ((mem node).blink)).flink ≠ node) := by
        rcases hbok with h | h <;> simp [h]
      simp only [walkRegion]
      rw [if_pos h0, if_neg hb1, if_neg (not_ne_iff.mpr h2), if_pos hfree,
        if_neg hnb, if_pos ⟨hf, hfb⟩]
      simp [emitFail, collectDumps, dumpO, dumpC, hpz, hnz]
    · intro hbok hfok
      have hnb : ¬((mem node).blink ≠ 0 ∧ (mem ((mem node).blink)).flink ≠ node) := by
        rcases hbok with h | h <;> simp [h]
      have hnf : ¬((mem node).flink ≠ 0 ∧ (mem ((mem node).flink)).blink ≠ node) := by
        rcases hfok with h | h <;> simp [h]
      simp only [walkRegion]
      rw [if_pos h0, if_neg hb1, if_neg (not_ne_iff.mpr h2), if_pos hfree,
        if_neg hnb, if_neg hnf]

/-- C5, witness: on `Hf`'s memory, at the iteration visiting the free node
32 (prev = 16, next = 48), the backward mismatch is reported with the
mismatched `blink` pointer and the walk fails at once. -/
theorem C5_witness :
    walkRegion memF 48 false 6 16 32 48 =
      .fail [Ev.errFreeList, Ev.dumpOverflowed 16 16 true,
        Ev.dumpCorrupted 32 16 16, Ev.blinkMismatch 8 99, Ev.semGive] :=
  (((C5_thm memF 48 false 5 16 32 48 (by decide) (Or.inr (by decide))
    (by decide)).2 (by decide)).1 (by decide) (by decide) (by decide)
    (by decide)).trans (by decide)

/-- C5, counterexample to the claim as stated: the first node of `Hf0`'s
region is a visited free node with a backward free-list mismatch, but the
checker does not report the node and return failure — `prev` is NULL at the
first node, `dump_node(prev, ...)` dereferences it, and the call faults
before emitting any dump or mismatch pointer. -/
theorem C5_counterexample :
    IS_FREE_NODE (memF0 16) = true ∧
    (memF0 16).blink ≠ 0 ∧
    (memF0 ((memF0 16).blink)).flink ≠ 16 ∧
    mm_check_heap_corruption Hf0 false 10 =
      .fault [Ev.semTake, Ev.errFreeList] := by
  decide

/-! ### C6 — semaphore discipline -/

/-- The semaphore events among the observable events. -/
def isSem : Ev → Bool
  | .semTake => true
  | .semGive => true
  | _ => false

lemma isDump_not_sem (e : Ev) (h : isDump e) : isSem e = false := by
  cases e <;> first | rfl | exact h.elim

lemma collectDumps_filter_sem (ds : List (Option Ev))
    (hds : ∀ o ∈ ds, ∀ x, o = some x → isDump x) :
    (collectDumps ds).1.filter isSem = [] := by
  refine List.filter_eq_nil_iff.mpr (fun a ha => ?_)
  have hd := hds _ (collectDumps_mem ds a ha) a rfl
  simp [isDump_not_sem a hd]

/-- Semaphore events expected of one region-walk result in task context. -/
def walkSemOK : WalkRes → Prop
  | .fuelOut => True
  | .fault l => l.filter isSem = []
  | .fail l => l.filter isSem = [Ev.semGive]
  | .pass l => l.filter isSem = [Ev.semGive]

lemma emitFail_sem (pre : List Ev) (ds : List (Option Ev)) (post : List Ev)
    (hpre : pre.filter isSem = [])
    (hds : ∀ o ∈ ds, ∀ x, o = some x → isDump x)
    (hpost : post.filter isSem = [Ev.semGive]) :
    walkSemOK (emitFail pre ds post) := by
  unfold emitFail
  by_cases hc : (collectDumps ds).2 = true
  · rw [if_pos hc]
    show (pre ++ (collectDumps ds).1).filter isSem = []
    rw [List.filter_append, hpre, collectDumps_filter_sem ds hds]
    rfl
  · rw [if_neg hc]
    show (pre ++ (collectDumps ds).1 ++ post).filter isSem = [Ev.semGive]
    rw [List.filter_append, List.filter_append, hpre,
      collectDumps_filter_sem ds hds, hpost]
    rfl

lemma walk_sem (mem : Nat → mm_allocnode_s) (hend : Nat) :
    ∀ (fuel prev node next : Nat),
      walkSemOK (walkRegion mem hend false fuel prev node next) := by
  intro fuel
  induction fuel with
  | zero => intro prev node next; trivial
  | succ f ih =>
    intro prev node next
    simp only [walkRegion]
    by_cases h0 : node < hend
    · rw [if_pos h0]
      by_cases h1 : prev ≠ 0 ∧ (mem prev).size ≠ MM_PREV_NODE_SIZE (mem node)
      · rw [if_pos h1]
        exact emitFail_sem _ _ _ (by simp [isSem]) (dump_pair_isDump mem prev node)
          (by simp [giveEvs, isSem])
      · rw [if_neg h1]
        by_cases h2 : (mem node).size ≠ MM_PREV_NODE_SIZE (mem next)
        · rw [if_pos h2]
          exact emitFail_sem _ _ _ (by simp [isSem])
            (dump_quad_isDump mem prev node next) (by simp [giveEvs, isSem])
        · rw [if_neg h2]
          cases hfree : IS_FREE_NODE (mem node) with
          | false => rw [if_neg (by simp)]; exact ih node next _
          | true =>
            rw [if_pos rfl]
            by_cases hb : (mem node).blink ≠ 0 ∧
                (mem ((mem node).blink)).flink ≠ node
            · rw [if_pos hb]
              exact emitFail_sem _ _ _ (by simp [isSem])
                (dump_pair_isDump mem prev node) (by simp [giveEvs, isSem])
            · rw [if_neg hb]
              by_cases hf2 : (mem node).flink ≠ 0 ∧
                  (mem ((mem node).flink)).blink ≠ node
              · rw [if_pos hf2]
                exact emitFail_sem _ _ _ (by simp [isSem])
                  (dump_pair_isDump mem prev node) (by simp [giveEvs, isSem])
              · rw [if_neg hf2]; exact ih node next _
    · rw [if_neg h0]
      show (giveEvs false).filter isSem = [Ev.semGive]
      simp [giveEvs, isSem]

/-- Semaphore events expected of one `checkRegion` result in task context. -/
def regionSemOK : WalkRes → Prop
  | .fuelOut => True
  | .fault l => l.filter isSem = [Ev.semTake]
  | .fail l => l.filter isSem = [Ev.semTake, Ev.semGive]
  | .pass l => l.filter isSem = [Ev.semTake, Ev.semGive]

lemma checkRegion_sem (mem : Nat → mm_allocnode_s) (s e fuel : Nat) :
    regionSemOK (checkRegion mem s e false fuel) := by
  have hw := walk_sem mem e fuel 0 s (s + (mem s).size)
  unfold checkRegion
  cases hres : walkRegion mem e false fuel 0 s (s + (mem s).size) with
  | fuelOut => trivial
  | fault l =>
    rw [hres] at hw
    show ((takeEvs false ++ l).filter isSem) = [Ev.semTake]
    rw [List.filter_append, hw]
    simp [takeEvs, isSem]
  | fail l =>
    rw [hres] at hw
    show ((takeEvs false ++ l).filter isSem) = [Ev.semTake, Ev.semGive]
    rw [List.filter_append, hw]
    simp [takeEvs, isSem]
  | pass l =>
    rw [hres] at hw
    show ((takeEvs false ++ l).filter isSem) = [Ev.semTake, Ev.semGive]
    rw [List.filter_append, hw]
    simp [takeEvs, isSem]

lemma checkRegions_sem (mem : Nat → mm_allocnode_s) (fuel : Nat) :
    ∀ (rs : List (Nat × Nat)) (acc : List Ev),
      (∃ k0, acc.filter isSem =
        List.flatten (List.replicate k0 [Ev.semTake, Ev.semGive])) →
      ∀ (code : Int) (tr : List Ev),
        checkRegions mem false fuel rs acc = .ret code tr →
        ∃ k, tr.filter isSem =
          List.flatten (List.replicate k [Ev.semTake, Ev.semGive]) := by
  intro rs
  induction rs with
  | nil =>
    intro acc hacc code tr heq
    obtain ⟨-, rfl⟩ := CheckRes.ret.inj heq
    exact hacc
  | cons r rest ih =>
    intro acc hacc code tr heq
    obtain ⟨k0, hk0⟩ := hacc
    have hr := checkRegion_sem mem r.1 r.2 fuel
    simp only [checkRegions] at heq
    cases hres : checkRegion mem r.1 r.2 false fuel with
    | fuelOut => rw [hres] at heq; exact absurd heq (by simp)
    | fault l => rw [hres] at heq; exact absurd heq (by simp)
    | fail l =>
      rw [hres] at heq
      rw [hres] at hr
      obtain ⟨-, rfl⟩ := CheckRes.ret.inj heq
      refine ⟨k0 + 1, ?_⟩
      rw [List.filter_append, hk0, hr, List.replicate_succ',
        List.flatten_append]
      simp
    | pass l =>
      rw [hres] at heq
      rw [hres] at hr
      refine ih (acc ++ l) ⟨k0 + 1, ?_⟩ code tr heq
      rw [List.filter_append, hk0, hr, List.replicate_succ',
        List.flatten_append]
      simp

lemma emitFail_sem_nil (pre : List Ev) (ds : List (Option Ev)) (post : List Ev)
    (hpre : pre.filter isSem = [])
    (hds : ∀ o ∈ ds, ∀ x, o = some x → isDump x)
    (hpost : post.filter isSem = []) :
    (evsOfW (emitFail pre ds post)).filter isSem = [] := by
  unfold emitFail
  by_cases hc : (collectDumps ds).2 = true
  · rw [if_pos hc]
    show (pre ++ (collectDumps ds).1).filter isSem = []
    rw [List.filter_append, hpre, collectDumps_filter_sem ds hds]
    rfl
  · rw [if_neg hc]
    show (pre ++ (collectDumps ds).1 ++ post).filter isSem = []
    rw [List.filter_append, List.filter_append, hpre,
      collectDumps_filter_sem ds hds, hpost]
    rfl

lemma walk_sem_ictx (mem : Nat → mm_allocnode_s) (hend : Nat) :
    ∀ (fuel prev node next : Nat),
      (evsOfW (walkRegion mem hend true fuel prev node next)).filter isSem = [] := by
  intro fuel
  induction fuel with
  | zero => intro prev node next; simp [walkRegion, evsOfW]
  | succ f ih =>
    intro prev node next
    simp only [walkRegion]
    by_cases h0 : node < hend
    · rw [if_pos h0]
      by_cases h1 : prev ≠ 0 ∧ (mem prev).size ≠ MM_PREV_NODE_SIZE (mem node)
      · rw [if_pos h1]
        exact emitFail_sem_nil _ _ _ (by simp [isSem])
          (dump_pair_isDump mem prev node) (by simp [giveEvs, isSem])
      · rw [if_neg h1]
        by_cases h2 : (mem node).size ≠ MM_PREV_NODE_SIZE (mem next)
        · rw [if_pos h2]
          exact emitFail_sem_nil _ _ _ (by simp [isSem])
            (dump_quad_isDump mem prev node next) (by simp [giveEvs, isSem])
        · rw [if_neg h2]
          cases hfree : IS_FREE_NODE (mem node) with
          | false => rw [if_neg (by simp)]; exact ih node next _
          | true =>
            rw [if_pos rfl]
            by_cases hb : (mem node).blink ≠ 0 ∧
                (mem ((mem node).blink)).flink ≠ node
            · rw [if_pos hb]
              exact emitFail_sem_nil _ _ _ (by simp [isSem])
                (dump_pair_isDump mem prev node) (by simp [giveEvs, isSem])
            · rw [if_neg hb]
              by_cases hf2 : (mem node).flink ≠ 0 ∧
                  (mem ((mem node).flink)).blink ≠ node
              · rw [if_pos hf2]
                exact emitFail_sem_nil _ _ _ (by simp [isSem])
                  (dump_pair_isDump mem prev node) (by simp [giveEvs, isSem])
              · rw [if_neg hf2]; exact ih node next _
    · rw [if_neg h0]
      simp [evsOfW, giveEvs]

lemma checkRegions_sem_ictx (mem : Nat → mm_allocnode_s) (fuel : Nat) :
    ∀ (rs : List (Nat × Nat)) (acc : List Ev), acc.filter isSem = [] →
      (evsOfC (checkRegions mem true fuel rs acc)).filter isSem = [] := by
  intro rs
  induction rs with
  | nil => intro acc hacc; simpa [checkRegions, evsOfC] using hacc
  | cons r rest ih =>
    intro acc hacc
    have hw := walk_sem_ictx mem r.2 fuel 0 r.1 (r.1 + (mem r.1).size)
    simp only [checkRegions]
    unfold checkRegion
    cases hres : walkRegion mem r.2 true fuel 0 r.1 (r.1 + (mem r.1).size) with
    | fuelOut => simp [evsOfC]
    | fault l =>
      rw [hres] at hw
      simp only [evsOfW] at hw
      show ((acc ++ (takeEvs true ++ l)).filter isSem) = []
      rw [List.filter_append, List.filter_append, hacc, hw]
      simp [takeEvs]
    | fail l =>
      rw [hres] at hw
      simp only [evsOfW] at hw
      show ((acc ++ (takeEvs true ++ l)).filter isSem) = []
      rw [List.filter_append, List.filter_append, hacc, hw]
      simp [takeEvs]
    | pass l =>
      rw [hres] at hw
      simp only [evsOfW] at hw
      refine ih (acc ++ (takeEvs true ++ l)) ?_
      rw [List.filter_append, List.filter_append, hacc, hw]
      simp [takeEvs]

/-- C6: in interrupt context, no invocation of `mm_check_heap_corruption`
ever takes or gives the heap semaphore; in task context, every invocation
that returns (success or any failure) has its semaphore events grouped as
one take followed by one give per region entered — the semaphore is taken
before each region's walk and released exactly once on every path out of
it, so the function never exits holding the lock. -/
theorem C6_thm (h : mm_heap_s) (fuel : Nat) :
    (evsOfC (mm_check_heap_corruption h true fuel)).filter isSem = [] ∧
    ∀ (code : Int) (tr : List Ev),
      mm_check_heap_corruption h false fuel = .ret code tr →
      ∃ k, tr.filter isSem =
        List.flatten (List.replicate k [Ev.semTake, Ev.semGive]) := by
  constructor
  · exact checkRegions_sem_ictx h.mem fuel h.regions [] rfl
  · exact checkRegions_sem h.mem fuel h.regions [] ⟨0, rfl⟩

/-- C6, witness: the successful task-context check of `Hgood` has the
balanced semaphore trace take-then-give. -/
theorem C6_witness :
    ∃ k, ([Ev.semTake, Ev.semGive] : List Ev).filter isSem =
      List.flatten (List.replicate k [Ev.semTake, Ev.semGive]) :=
  (C6_thm Hgood 10).2 0 [Ev.semTake, Ev.semGive] (by decide)

/-! ### C9 — termination of the region walk -/

lemma emitFail_ne_fuelOut (pre : List Ev) (ds : List (Option Ev))
    (post : List Ev) : emitFail pre ds post ≠ .fuelOut := by
  unfold emitFail
  split <;> simp

lemma walk_chain_term (mem : Nat → mm_allocnode_s) (hend : Nat) (ictx : Bool) :
    ∀ (L : List Nat) (node : Nat), Chain mem hend node L →
      ∀ (fuel : Nat), L.length < fuel → ∀ (prev : Nat),
      walkRegion mem hend ictx fuel prev node (node + (mem node).size) ≠
        .fuelOut := by
  intro L node hc
  induction hc with
  | nil a ha =>
    intro fuel hf prev
    cases fuel with
    | zero => omega
    | succ f =>
      simp only [walkRegion]
      rw [if_neg (Nat.not_lt.mpr ha)]
      simp
  | cons a L ha t ih =>
    intro fuel hf prev
    cases fuel with
    | zero => simp at hf
    | succ f =>
      simp only [walkRegion]
      rw [if_pos ha]
      split
      · exact emitFail_ne_fuelOut _ _ _
      · split
        · exact emitFail_ne_fuelOut _ _ _
        · split
          · split
            · exact emitFail_ne_fuelOut _ _ _
            · split
              · exact emitFail_ne_fuelOut _ _ _
              · exact ih f (by simpa using hf) a
          · exact ih f (by simpa using hf) a

lemma walkZ_diverges : ∀ (fuel prev : Nat), prev = 0 ∨ prev = 16 →
    walkRegion memZ 32 false fuel prev 16 16 = .fuelOut := by
  intro fuel
  induction fuel with
  | zero => intro prev _; rfl
  | succ f ih =>
    intro prev hp
    simp only [walkRegion]
    rw [if_pos (by decide)]
    rw [if_neg (by rcases hp with rfl | rfl <;> decide)]
    rw [if_neg (by decide)]
    rw [if_neg (by decide)]
    have h16 : (16 : Nat) + (memZ 16).size = 16 := by decide
    rw [h16]
    exact ih 16 (Or.inr rfl)

/-- C9: the region walk terminates (does not run out of any sufficient
fuel) on every heap whose node chain, advancing by `size` bytes from the
region's start, reaches the region's end with strictly positive sizes along
the way; and the positivity is a genuine precondition — the loop advances
only by `node->size` with no positivity or bounds check, and on `memZ`,
whose node at 16 has `size == 0` and passes every check, the walk runs
forever (every fuel is exhausted). -/
theorem C9_thm :
    (∀ (mem : Nat → mm_allocnode_s) (hend start : Nat) (L : List Nat)
      (fuel : Nat), Chain mem hend start L →
      (∀ a ∈ L, 0 < (mem a).size) → L.length < fuel →
      walkRegion mem hend false fuel 0 start (start + (mem start).size) ≠
        .fuelOut) ∧
    ∀ (fuel : Nat), walkRegion memZ 32 false fuel 0 16 (16 + (memZ 16).size) =
      .fuelOut := by
  constructor
  · intro mem hend start L fuel hc _ hf
    exact walk_chain_term mem hend false L start hc fuel hf 0
  · intro fuel
    have h16 : (16 : Nat) + (memZ 16).size = 16 := by decide
    rw [h16]
    exact walkZ_diverges fuel 0 (Or.inl rfl)

/-- C9, witness: the chain of `Hgood`'s single region has positive sizes and
reaches the region end, so its walk does not exhaust fuel 10. -/
theorem C9_witness :
    walkRegion memGood 48 false 10 0 16 (16 + (memGood 16).size) ≠
      .fuelOut := by
  refine C9_thm.1 memGood 48 16 [16, 32] 10 ?_ (by decide) (by decide)
  apply Chain.cons 16 [32] (by decide)
  show Chain memGood 48 32 [32]
  apply Chain.cons 32 [] (by decide)
  show Chain memGood 48 48 []
  exact Chain.nil 48 (by decide)

/-! ### The select-over-poll shim (`fs/vfs/fs_select.c`) -/

/-- `struct timeval`. -/
structure timeval where
  tv_sec : Int
  tv_usec : Int

/-- `static int _set_timeout(FAR struct timeval *timeout)`, lines 87-97:
`msec = -1` (any negative value means no timeout), overwritten with
`tv_sec * 1000 + tv_usec / 1000` when the pointer is non-null (C integer
division truncates toward zero). -/
def _set_timeout : Option timeval → Int
  | none => -1
  | some t => t.tv_sec * 1000 + Int.tdiv t.tv_usec 1000

/-- An `fd_set`, as the membership predicate of descriptors. -/
abbrev FdSet := Nat → Bool

/-- `FD_ISSET(fd, set)`. -/
def FD_ISSET (fd : Nat) (s : FdSet) : Bool := s fd

/-- `FD_SET(fd, set)`. -/
def FD_SET (fd : Nat) (s : FdSet) : FdSet := fun x => if x = fd then true else s x

/-- Membership test guarded by the null check (`readfds && FD_ISSET(...)`). -/
def inSet (s : Option FdSet) (fd : Nat) : Bool :=
  match s with
  | some f => FD_ISSET fd f
  | none => false

/-- Modelled from the spec: the poll interest/readiness flags live in
`poll.h`, which is not part of the excerpt; only their being distinct bits
matters here.  Read-readiness includes hang-up (§6). -/
def POLLIN : Nat := 0x01

/-- Modelled from the spec: see `POLLIN`. -/
def POLLOUT : Nat := 0x04

/-- Modelled from the spec: see `POLLIN`. -/
def POLLERR : Nat := 0x08

/-- Modelled from the spec: see `POLLIN`. -/
def POLLHUP : Nat := 0x10

/-- `struct pollfd`, reduced to the fields the shim uses. -/
structure pollfd where
  fd : Nat
  events : Nat
  revents : Nat
deriving DecidableEq

/-- `static int _init_desc_list(...)`, lines 99-143: for each descriptor
below `nfds` present in at least one non-null set, one `pollfd` entry with
the OR of the matching interest flags (the array comes zeroed from
`kmm_zalloc`, and the three `if` blocks OR into `events`); the returned
index is the list length. -/
def _init_desc_list (r w e : Option FdSet) : Nat → List pollfd
  | 0 => []
  | n + 1 =>
    _init_desc_list r w e n ++
      (if inSet r n || inSet w n || inSet e n then
        [⟨n, (if inSet r n then POLLIN else 0) |||
             (if inSet w n then POLLOUT else 0) |||
             (if inSet e n then POLLERR else 0), 0⟩]
      else [])

/-- The `npfds` counting loop of `select`, lines 245-251. -/
def selectCount (r w e : Option FdSet) : Nat → Nat
  | 0 => 0
  | n + 1 => selectCount r w e n + (if inSet r n || inSet w n || inSet e n then 1 else 0)

/-- `static void _reset_fds(...)`, lines 145-156: each non-null set is
zeroed. -/
def _reset_fds (r w e : Option FdSet) :
    Option FdSet × Option FdSet × Option FdSet :=
  (r.map fun _ => fun _ => false,
   w.map fun _ => fun _ => false,
   e.map fun _ => fun _ => false)

/-- One conditional `FD_SET`-and-count block of `_back_desc_list`: when the
set pointer is non-null and `revents` intersects `mask`, the entry's fd is
set and `ret` is incremented. -/
def setCondFd (mask : Nat) : Option FdSet → pollfd → Nat × Option FdSet
  | none, _ => (0, none)
  | some f, p =>
    if p.revents &&& mask ≠ 0 then (1, some (FD_SET p.fd f)) else (0, some f)

/-- `static int _back_desc_list(...)`, lines 158-197: walk the pollfd list
in order; per entry set the read bit on `POLLIN | POLLHUP`, the write bit
on `POLLOUT`, the except bit on `POLLERR`, counting every bit set. -/
def _back_desc_list :
    Option FdSet → Option FdSet → Option FdSet → List pollfd →
      Nat × Option FdSet × Option FdSet × Option FdSet
  | r, w, e, [] => (0, r, w, e)
  | r, w, e, p :: ps =>
    ((setCondFd (POLLIN ||| POLLHUP) r p).1 + (setCondFd POLLOUT w p).1 +
      (setCondFd POLLERR e p).1 +
      (_back_desc_list (setCondFd (POLLIN ||| POLLHUP) r p).2
        (setCondFd POLLOUT w p).2 (setCondFd POLLERR e p).2 ps).1,
     (_back_desc_list (setCondFd (POLLIN ||| POLLHUP) r p).2
        (setCondFd POLLOUT w p).2 (setCondFd POLLERR e p).2 ps).2)

/-- The `poll()` oracle writes each entry's `revents`; readiness is a
function of the descriptor (poll only ever writes the `revents` fields). -/
def applyRevents (f : Nat → Nat) (ps : List pollfd) : List pollfd :=
  ps.map fun p => { p with revents := f p.fd }

/-- Observable outcome of one `select` call: the return value, the three
rewritten sets, and the arguments/results of the delegated `poll` call. -/
structure SelectOut where
  ret : Int
  readfds : Option FdSet
  writefds : Option FdSet
  exceptfds : Option FdSet
  polledSet : List pollfd
  polledNfds : Nat
  polledTimeout : Int
  pollResult : List pollfd

instance : Inhabited SelectOut := ⟨⟨0, none, none, none, [], 0, 0, []⟩⟩

/-- `assertFail` is the `DEBUGASSERT(ndx == npfds)` / `EINVAL` exit of
`select`, lines 267-271. -/
inductive SelectRes where
  | assertFail
  | ok (out : SelectOut)

/-- `int select(...)`, lines 231-299, with `poll` abstracted as an oracle
(`pollRet` its return value, `pollRev` the readiness flags it reports per
descriptor).  Allocation failure of the pollfd array is not modelled; the
poll-failure errno shuffling does not change the returned value. -/
def select (nfds : Nat) (r w e : Option FdSet) (tmo : Option timeval)
    (pollRet : Int) (pollRev : Nat → Nat) : SelectRes :=
  if (_init_desc_list r w e nfds).length ≠ selectCount r w e nfds then
    .assertFail
  else
    if 0 < pollRet then
      .ok ⟨Int.ofNat (_back_desc_list (_reset_fds r w e).1 (_reset_fds r w e).2.1
            (_reset_fds r w e).2.2
            (applyRevents pollRev (_init_desc_list r w e nfds))).1,
        (_back_desc_list (_reset_fds r w e).1 (_reset_fds r w e).2.1
            (_reset_fds r w e).2.2
            (applyRevents pollRev (_init_desc_list r w e nfds))).2.1,
        (_back_desc_list (_reset_fds r w e).1 (_reset_fds r w e).2.1
            (_reset_fds r w e).2.2
            (applyRevents pollRev (_init_desc_list r w e nfds))).2.2.1,
        (_back_desc_list (_reset_fds r w e).1 (_reset_fds r w e).2.1
            (_reset_fds r w e).2.2
            (applyRevents pollRev (_init_desc_list r w e nfds))).2.2.2,
        _init_desc_list r w e nfds, selectCount r w e nfds, _set_timeout tmo,
        applyRevents pollRev (_init_desc_list r w e nfds)⟩
    else
      .ok ⟨pollRet, (_reset_fds r w e).1, (_reset_fds r w e).2.1,
        (_reset_fds r w e).2.2, _init_desc_list r w e nfds,
        selectCount r w e nfds, _set_timeout tmo,
        applyRevents pollRev (_init_desc_list r w e nfds)⟩

/-- The outcome of a `select` call (total, since the assertion exit is
unreachable — see `C10_thm`). -/
def selectOut (nfds : Nat) (r w e : Option FdSet) (tmo : Option timeval)
    (pollRet : Int) (pollRev : Nat → Nat) : SelectOut :=
  match select nfds r w e tmo pollRet pollRev with
  | .ok o => o
  | .assertFail => default

/-! ### C10 — the pollfd count always matches the filled entries -/

lemma init_desc_list_length (r w e : Option FdSet) :
    ∀ n, (_init_desc_list r w e n).length = selectCount r w e n := by
  intro n
  induction n with
  | zero => rfl
  | succ n ih =>
    simp only [_init_desc_list, selectCount, List.length_append, ih]
    split <;> simp

/-- C10: for every `nfds` and every combination of null or non-null sets,
the `npfds` computed by `select`'s counting loop equals the number of
entries `_init_desc_list` fills in (both count each descriptor present in
at least one set exactly once), so `DEBUGASSERT(ndx == npfds)` always holds
and the `EINVAL` branch after it is unreachable: `select` never exits
through `assertFail`. -/
theorem C10_thm (nfds : Nat) (r w e : Option FdSet) (tmo : Option timeval)
    (pollRet : Int) (pollRev : Nat → Nat) :
    (_init_desc_list r w e nfds).length = selectCount r w e nfds ∧
    select nfds r w e tmo pollRet pollRev ≠ .assertFail ∧
    select nfds r w e tmo pollRet pollRev =
      .ok (selectOut nfds r w e tmo pollRet pollRev) := by
  have hl := init_desc_list_length r w e nfds
  refine ⟨hl, ?_, ?_⟩
  · unfold select
    rw [if_neg (by simp [hl])]
    split <;> simp
  · unfold selectOut select
    rw [if_neg (by simp [hl])]
    split <;> rfl

/-! ### C7 — the timeout handed to poll -/

/-- C7: the millisecond timeout `select` passes to the underlying `poll`
is exactly `_set_timeout`: a null `timeval` pointer yields -1 (negative,
meaning no timeout), and a non-null `{tv_sec, tv_usec}` yields
`tv_sec * 1000 + tv_usec / 1000`. -/
theorem C7_thm (nfds : Nat) (r w e : Option FdSet) (tmo : Option timeval)
    (pollRet : Int) (pollRev : Nat → Nat) :
    (selectOut nfds r w e tmo pollRet pollRev).polledTimeout =
      _set_timeout tmo ∧
    _set_timeout none = -1 ∧ _set_timeout none < 0 ∧
    ∀ (s u : Int), _set_timeout (some ⟨s, u⟩) = s * 1000 + Int.tdiv u 1000 := by
  refine ⟨?_, rfl, by decide, fun s u => rfl⟩
  unfold selectOut select
  rw [if_neg (by simp [init_desc_list_length r w e nfds])]
  by_cases hp : 0 < pollRet
  · rw [if_pos hp]
  · rw [if_neg hp]

/-! ### C8 — rebuilding the three fd sets from poll's readiness flags -/

lemma setCondFd_other (mask : Nat) (s : Option FdSet) (p : pollfd) (x : Nat)
    (hx : x ≠ p.fd) : inSet (setCondFd mask s p).2 x = inSet s x := by
  cases s with
  | none => rfl
  | some f =>
    simp only [setCondFd]
    split
    · simp [inSet, FD_ISSET, FD_SET, hx]
    · rfl

lemma setCondFd_self (mask : Nat) (s : Option FdSet) (p : pollfd) :
    inSet (setCondFd mask s p).2 p.fd =
      (inSet s p.fd || (s.isSome && decide (p.revents &&& mask ≠ 0))) := by
  cases s with
  | none => rfl
  | some f =>
    simp only [setCondFd]
    by_cases hc : p.revents &&& mask ≠ 0
    · rw [if_pos hc]
      simp [inSet, FD_ISSET, FD_SET, hc]
    · rw [if_neg hc]
      simp [inSet, FD_ISSET, hc]

lemma setCondFd_isSome (mask : Nat) (s : Option FdSet) (p : pollfd) :
    (setCondFd mask s p).2.isSome = s.isSome := by
  cases s with
  | none => rfl
  | some f => simp only [setCondFd]; split <;> rfl

lemma setCondFd_count (mask : Nat) (s : Option FdSet) (p : pollfd) :
    (setCondFd mask s p).1 =
      if s.isSome && decide (p.revents &&& mask ≠ 0) then 1 else 0 := by
  cases s with
  | none => rfl
  | some f =>
    simp only [setCondFd]
    by_cases hc : p.revents &&& mask ≠ 0
    · rw [if_pos hc]; simp [hc]
    · rw [if_neg hc]; simp [hc]

lemma back_desc_unchanged :
    ∀ (ps : List pollfd) (r w e : Option FdSet) (x : Nat),
      (∀ p ∈ ps, p.fd ≠ x) →
      inSet (_back_desc_list r w e ps).2.1 x = inSet r x ∧
      inSet (_back_desc_list r w e ps).2.2.1 x = inSet w x ∧
      inSet (_back_desc_list r w e ps).2.2.2 x = inSet e x := by
  intro ps
  induction ps with
  | nil => intro r w e x _; exact ⟨rfl, rfl, rfl⟩
  | cons p ps ih =>
    intro r w e x hx
    have hpx : x ≠ p.fd := fun h => hx p (by simp) h.symm
    obtain ⟨h1, h2, h3⟩ := ih (setCondFd (POLLIN ||| POLLHUP) r p).2
      (setCondFd POLLOUT w p).2 (setCondFd POLLERR e p).2 x
      (fun q hq => hx q (by simp [hq]))
    simp only [_back_desc_list]
    exact ⟨h1.trans (setCondFd_other _ r p x hpx),
      h2.trans (setCondFd_other _ w p x hpx),
      h3.trans (setCondFd_other _ e p x hpx)⟩

lemma back_desc_isSome :
    ∀ (ps : List pollfd) (r w e : Option FdSet),
      (_back_desc_list r w e ps).2.1.isSome = r.isSome ∧
      (_back_desc_list r w e ps).2.2.1.isSome = w.isSome ∧
      (_back_desc_list r w e ps).2.2.2.isSome = e.isSome := by
  intro ps
  induction ps with
  | nil => intro r w e; exact ⟨rfl, rfl, rfl⟩
  | cons p ps ih =>
    intro r w e
    obtain ⟨h1, h2, h3⟩ := ih (setCondFd (POLLIN ||| POLLHUP) r p).2
      (setCondFd POLLOUT w p).2 (setCondFd POLLERR e p).2
    simp only [_back_desc_list]
    exact ⟨h1.trans (setCondFd_isSome _ r p), h2.trans (setCondFd_isSome _ w p),
      h3.trans (setCondFd_isSome _ e p)⟩

lemma back_desc_mem :
    ∀ (ps : List pollfd) (r w e : Option FdSet),
      (ps.map pollfd.fd).Nodup →
      ∀ p ∈ ps,
        inSet (_back_desc_list r w e ps).2.1 p.fd =
          (inSet r p.fd ||
            (r.isSome && decide (p.revents &&& (POLLIN ||| POLLHUP) ≠ 0))) ∧
        inSet (_back_desc_list r w e ps).2.2.1 p.fd =
          (inSet w p.fd || (w.isSome && decide (p.revents &&& POLLOUT ≠ 0))) ∧
        inSet (_back_desc_list r w e ps).2.2.2 p.fd =
          (inSet e p.fd || (e.isSome && decide (p.revents &&& POLLERR ≠ 0))) := by
  intro ps
  induction ps with
  | nil => intro r w e _ p hp; exact absurd hp (by simp)
  | cons q ps ih =>
    intro r w e hnd p hp
    rw [List.map_cons, List.nodup_cons] at hnd
    rcases List.mem_cons.mp hp with rfl | hp
    · obtain ⟨h1, h2, h3⟩ := back_desc_unchanged ps
        (setCondFd (POLLIN ||| POLLHUP) r p).2 (setCondFd POLLOUT w p).2
        (setCondFd POLLERR e p).2 p.fd
        (fun q hq hkq => hnd.1 (hkq ▸ List.mem_map_of_mem pollfd.fd hq))
      simp only [_back_desc_list]
      exact ⟨h1.trans (setCondFd_self _ r p), h2.trans (setCondFd_self _ w p),
        h3.trans (setCondFd_self _ e p)⟩
    · have hfd : p.fd ≠ q.fd :=
        fun hkq => hnd.1 (hkq ▸ List.mem_map_of_mem pollfd.fd hp)
      obtain ⟨h1, h2, h3⟩ := ih (setCondFd (POLLIN ||| POLLHUP) r q).2
        (setCondFd POLLOUT w q).2 (setCondFd POLLERR e q).2 hnd.2 p hp
      rw [setCondFd_other _ r q p.fd hfd, setCondFd_isSome _ r q] at h1
      rw [setCondFd_other _ w q p.fd hfd, setCondFd_isSome _ w q] at h2
      rw [setCondFd_other _ e q p.fd hfd, setCondFd_isSome _ e q] at h3
      simp only [_back_desc_list]
      exact ⟨h1, h2, h3⟩

lemma back_desc_count :
    ∀ (ps : List pollfd) (r w e : Option FdSet),
      (_back_desc_list r w e ps).1 =
        (ps.map fun p =>
          (if r.isSome && decide (p.revents &&& (POLLIN ||| POLLHUP) ≠ 0)
            then 1 else 0) +
          (if w.isSome && decide (p.revents &&& POLLOUT ≠ 0) then 1 else 0) +
          (if e.isSome && decide (p.revents &&& POLLERR ≠ 0) then 1 else 0)).sum := by
  intro ps
  induction ps with
  | nil => intro r w e; rfl
  | cons p ps ih =>
    intro r w e
    have hrec := ih (setCondFd (POLLIN ||| POLLHUP) r p).2
      (setCondFd POLLOUT w p).2 (setCondFd POLLERR e p).2
    rw [setCondFd_isSome _ r p, setCondFd_isSome _ w p,
      setCondFd_isSome _ e p] at hrec
    simp only [_back_desc_list, List.map_cons, List.sum_cons]
    rw [hrec, setCondFd_count _ r p, setCondFd_count _ w p,
      setCondFd_count _ e p]

lemma init_desc_fd_lt (r w e : Option FdSet) :
    ∀ n, ∀ p ∈ _init_desc_list r w e n, p.fd < n := by
  intro n
  induction n with
  | zero => simp [_init_desc_list]
  | succ n ih =>
    intro p hp
    simp only [_init_desc_list, List.mem_append] at hp
    rcases hp with h | h
    · exact Nat.lt_succ_of_lt (ih p h)
    · split at h
      · simp only [List.mem_singleton] at h
        rw [h]
        exact Nat.lt_succ_self n
      · exact absurd h (by simp)

lemma init_desc_nodup (r w e : Option FdSet) :
    ∀ n, ((_init_desc_list r w e n).map pollfd.fd).Nodup := by
  intro n
  induction n with
  | zero => simp [_init_desc_list]
  | succ n ih =>
    simp only [_init_desc_list, List.map_append]
    refine List.Nodup.append ih ?_ ?_
    · split <;> simp
    · intro x hx hx2
      have hlt : x < n := by
        obtain ⟨p, hp, rfl⟩ := List.mem_map.mp hx
        exact init_desc_fd_lt r w e n p hp
      split at hx2
      · simp only [List.map_cons, List.map_nil, List.mem_singleton] at hx2
        omega
      · simp at hx2

lemma applyRevents_map_fd (f : Nat → Nat) (ps : List pollfd) :
    (applyRevents f ps).map pollfd.fd = ps.map pollfd.fd := by
  unfold applyRevents
  rw [List.map_map]
  rfl

lemma reset_r (r w e : Option FdSet) (x : Nat) :
    inSet (_reset_fds r w e).1 x = false := by cases r <;> rfl

lemma reset_w (r w e : Option FdSet) (x : Nat) :
    inSet (_reset_fds r w e).2.1 x = false := by cases w <;> rfl

lemma reset_e (r w e : Option FdSet) (x : Nat) :
    inSet (_reset_fds r w e).2.2 x = false := by cases e <;> rfl

lemma reset_isSome (r w e : Option FdSet) :
    (_reset_fds r w e).1.isSome = r.isSome ∧
    (_reset_fds r w e).2.1.isSome = w.isSome ∧
    (_reset_fds r w e).2.2.isSome = e.isSome := by
  refine ⟨?_, ?_, ?_⟩
  · cases r <;> rfl
  · cases w <;> rfl
  · cases e <;> rfl

/-- C8: when the underlying poll reports a positive count, the three fd
sets are cleared and rebuilt from the per-descriptor readiness flags: a
polled descriptor ends up in `readfds` iff its `revents` intersects
`POLLIN | POLLHUP`, in `writefds` iff it contains `POLLOUT`, in `exceptfds`
iff it contains `POLLERR` — each only when the corresponding set argument
was non-null — every unpolled descriptor is in no set, and the value
`select` returns is the total number of (descriptor, set) memberships so
established. -/
theorem C8_thm (nfds : Nat) (r w e : Option FdSet) (tmo : Option timeval)
    (pollRet : Int) (pollRev : Nat → Nat) (hpos : 0 < pollRet)
    (out : SelectOut)
    (hout : out = selectOut nfds r w e tmo pollRet pollRev) :
    (∀ p ∈ out.pollResult,
      inSet out.readfds p.fd =
        (r.isSome && decide (p.revents &&& (POLLIN ||| POLLHUP) ≠ 0)) ∧
      inSet out.writefds p.fd =
        (w.isSome && decide (p.revents &&& POLLOUT ≠ 0)) ∧
      inSet out.exceptfds p.fd =
        (e.isSome && decide (p.revents &&& POLLERR ≠ 0))) ∧
    (∀ x, (∀ p ∈ out.pollResult, p.fd ≠ x) →
      inSet out.readfds x = false ∧ inSet out.writefds x = false ∧
      inSet out.exceptfds x = false) ∧
    out.ret = Int.ofNat ((out.pollResult.map fun p =>
      (if inSet out.readfds p.fd then 1 else 0) +
      (if inSet out.writefds p.fd then 1 else 0) +
      (if inSet out.exceptfds p.fd then 1 else 0)).sum) := by
  subst hout
  have hcond : ¬((_init_desc_list r w e nfds).length ≠ selectCount r w e nfds) := by
    simp [init_desc_list_length r w e nfds]
  have hres : (selectOut nfds r w e tmo pollRet pollRev).pollResult =
      applyRevents pollRev (_init_desc_list r w e nfds) := by
    unfold selectOut select
    rw [if_neg hcond, if_pos hpos]
  have hread : (selectOut nfds r w e tmo pollRet pollRev).readfds =
      (_back_desc_list (_reset_fds r w e).1 (_reset_fds r w e).2.1
        (_reset_fds r w e).2.2
        (applyRevents pollRev (_init_desc_list r w e nfds))).2.1 := by
    unfold selectOut select
    rw [if_neg hcond, if_pos hpos]
  have hwrite : (selectOut nfds r w e tmo pollRet pollRev).writefds =
      (_back_desc_list (_reset_fds r w e).1 (_reset_fds r w e).2.1
        (_reset_fds r w e).2.2
        (applyRevents pollRev (_init_desc_list r w e nfds))).2.2.1 := by
    unfold selectOut select
    rw [if_neg hcond, if_pos hpos]
  have hexcept : (selectOut nfds r w e tmo pollRet pollRev).exceptfds =
      (_back_desc_list (_reset_fds r w e).1 (_reset_fds r w e).2.1
        (_reset_fds r w e).2.2
        (applyRevents pollRev (_init_desc_list r w e nfds))).2.2.2 := by
    unfold selectOut select
    rw [if_neg hcond, if_pos hpos]
  have hret : (selectOut nfds r w e tmo pollRet pollRev).ret =
      Int.ofNat (_back_desc_list (_reset_fds r w e).1 (_reset_fds r w e).2.1
        (_reset_fds r w e).2.2
        (applyRevents pollRev (_init_desc_list r w e nfds))).1 := by
    unfold selectOut select
    rw [if_neg hcond, if_pos hpos]
  have hnodup : ((applyRevents pollRev (_init_desc_list r w e nfds)).map
      pollfd.fd).Nodup := by
    rw [applyRevents_map_fd]
    exact init_desc_nodup r w e nfds
  have hmem : ∀ p ∈ applyRevents pollRev (_init_desc_list r w e nfds),
      inSet (selectOut nfds r w e tmo pollRet pollRev).readfds p.fd =
        (r.isSome && decide (p.revents &&& (POLLIN ||| POLLHUP) ≠ 0)) ∧
      inSet (selectOut nfds r w e tmo pollRet pollRev).writefds p.fd =
        (w.isSome && decide (p.revents &&& POLLOUT ≠ 0)) ∧
      inSet (selectOut nfds r w e tmo pollRet pollRev).exceptfds p.fd =
        (e.isSome && decide (p.revents &&& POLLERR ≠ 0)) := by
    intro p hp
    obtain ⟨h1, h2, h3⟩ := back_desc_mem
      (applyRevents pollRev (_init_desc_list r w e nfds))
      (_reset_fds r w e).1 (_reset_fds r w e).2.1 (_reset_fds r w e).2.2
      hnodup p hp
    rw [reset_r r w e p.fd, (reset_isSome r w e).1, Bool.false_or] at h1
    rw [reset_w r w e p.fd, (reset_isSome r w e).2.1, Bool.false_or] at h2
    rw [reset_e r w e p.fd, (reset_isSome r w e).2.2, Bool.false_or] at h3
    rw [hread, hwrite, hexcept]
    exact ⟨h1, h2, h3⟩
  refine ⟨?_, ?_, ?_⟩
  · intro p hp
    rw [hres] at hp
    exact hmem p hp
  · intro x hx
    rw [hres] at hx
    obtain ⟨h1, h2, h3⟩ := back_desc_unchanged
      (applyRevents pollRev (_init_desc_list r w e nfds))
      (_reset_fds r w e).1 (_reset_fds r w e).2.1 (_reset_fds r w e).2.2 x hx
    rw [reset_r r w e x] at h1
    rw [reset_w r w e x] at h2
    rw [reset_e r w e x] at h3
    rw [hread, hwrite, hexcept]
    exact ⟨h1, h2, h3⟩
  · rw [hret, hres]
    refine congrArg Int.ofNat ?_
    rw [back_desc_count (applyRevents pollRev (_init_desc_list r w e nfds))
      (_reset_fds r w e).1 (_reset_fds r w e).2.1 (_reset_fds r w e).2.2]
    rw [(reset_isSome r w e).1, (reset_isSome r w e).2.1,
      (reset_isSome r w e).2.2]
    refine congrArg List.sum (List.map_congr_left ?_)
    intro p hp
    rw [(hmem p hp).1, (hmem p hp).2.1, (hmem p hp).2.2]

/-- Concrete sets for the C8 witness: read interest on {1, 3}, write
interest on {3}, no except set. -/
def rW : Option FdSet := some (fun x => x == 1 || x == 3)

def wW : Option FdSet := some (fun x => x == 3)

/-- Readiness the poll oracle reports in the C8 witness: descriptor 1
read-ready, descriptor 3 write-ready. -/
def revW : Nat → Nat := fun fd => if fd = 1 then POLLIN else if fd = 3 then POLLOUT else 0

/-- C8, witness: with read interest on {1, 3}, write interest on {3} and
poll reporting 1 read-ready and 3 write-ready, select returns 2. -/
theorem C8_witness : (selectOut 4 rW wW none none 2 revW).ret = 2 :=
  ((C8_thm 4 rW wW none none 2 revW (by decide)
    (selectOut 4 rW wW none none 2 revW) rfl).2.2).trans (by decide)
